import Mathlib

/-!
Verification of the TruthShield core against its source.

The development shallowly embeds the two core pieces of the repository:
the pagination token history kept in Streamlit session state
(src/Home.py) and the fact-check API call plus thumbnail scraping
(src/utils.py). External effects (HTTP responses, fetched page markup,
clock time) are passed in as explicit arguments, so every definition is
an executable Lean function mirroring the Python control flow.
-/

namespace TruthShield

/-! ## Pagination state machine (src/Home.py)

Session state keeps `home_page_history : list of optional page tokens`
(initialised to `[None]`) and `home_page_token` (initialised to `None`).
The three transitions are the language-change reset (lines 68-73), the
`go_to_next_page` callback (lines 179-181, only wired to an enabled
button when the last response carried a truthy `next_page_token`,
lines 284-290), and the `go_to_previous_page` callback (lines 175-177,
only wired to an enabled button when `len(history) > 1`,
lines 275-281). -/

/-- The pagination-relevant Streamlit session state of src/Home.py:
`home_page_history` (list of page tokens, `none` meaning the first
page) and `home_page_token` (the token used for the next API call). -/
structure PageState where
  home_page_history : List (Option String)
  home_page_token : Option String
deriving DecidableEq

/-- The initial session state set up at lines 27-30 of src/Home.py:
`home_page_token = None`, `home_page_history = [None]`. -/
def initPageState : PageState :=
  { home_page_history := [none], home_page_token := none }

/-- A user-driven pagination action: the language-change reset, the
Next Page button (carrying the `next_page_token` of the last response),
or the Previous Page button. -/
inductive NavAction where
  | reset
  | advance (t : String)
  | retreat
deriving DecidableEq

/-- One pagination transition of src/Home.py, with the availability
guards under which each callback can fire. `reset` re-creates the
initial history (lines 71-72). `advance t` models `go_to_next_page`
(lines 179-181): the button is enabled only when `next_page_token` is
truthy, i.e. a non-empty string (line 285), and the callback appends
the token and makes it current. `retreat` models `go_to_previous_page`
(lines 175-177): the button is enabled only when the history is longer
than one (line 276), and the callback pops the last element and makes
the new last element current. When a guard fails the button is
disabled, so the state is unchanged. -/
def navStep (s : PageState) (a : NavAction) : PageState :=
  match a with
  | .reset => { home_page_history := [none], home_page_token := none }
  | .advance t =>
      if t = "" then s
      else { home_page_history := s.home_page_history ++ [some t],
             home_page_token := some t }
  | .retreat =>
      if 1 < s.home_page_history.length then
        let h := s.home_page_history.dropLast
        { home_page_history := h, home_page_token := h.getLastD none }
      else s

/-- Run a sequence of pagination actions from the initial state. -/
def runNav (acts : List NavAction) : PageState :=
  acts.foldl navStep initPageState

/-- The session invariant: the history is non-empty and the current
token is its last element. -/
def NavInv (s : PageState) : Prop :=
  s.home_page_history ≠ [] ∧
    s.home_page_token = s.home_page_history.getLastD none

theorem navStep_inv {s : PageState} (hs : NavInv s) (a : NavAction) :
    NavInv (navStep s a) := by
  obtain ⟨hne, htok⟩ := hs
  cases a with
  | reset => exact ⟨by simp [navStep], by simp [navStep]⟩
  | advance t =>
      by_cases ht : t = ""
      · simpa [navStep, ht] using ⟨hne, htok⟩
      · refine ⟨?_, ?_⟩
        · simp [navStep, ht]
        · simp [navStep, ht, List.getLastD_concat]
  | retreat =>
      by_cases hl : 1 < s.home_page_history.length
      · refine ⟨?_, ?_⟩
        · simp only [navStep, hl, if_true]
          intro hnil
          have := congrArg List.length hnil
          simp [List.length_dropLast] at this
          omega
        · simp [navStep, hl]
      · simpa [navStep, hl] using ⟨hne, htok⟩

theorem runNav_inv_aux (acts : List NavAction) :
    ∀ s : PageState, NavInv s → NavInv (acts.foldl navStep s) := by
  induction acts with
  | nil => intro s hs; simpa using hs
  | cons a as ih =>
      intro s hs
      exact ih (navStep s a) (navStep_inv hs a)

/-- **C1.** After every sequence of pagination transitions permitted by
the availability guards, the history has length at least 1 and the
current token equals the last element of the history; and the concrete
sequence reset; advance "A"; retreat leaves the current token at
`none`. -/
theorem pagination_history_invariant (acts : List NavAction) :
    1 ≤ (runNav acts).home_page_history.length ∧
      (runNav acts).home_page_token =
        (runNav acts).home_page_history.getLastD none ∧
      (runNav [.reset, .advance "A", .retreat]).home_page_token = none := by
  have h := runNav_inv_aux acts initPageState ⟨by simp [initPageState], rfl⟩
  obtain ⟨hne, htok⟩ := h
  refine ⟨?_, htok, ?_⟩
  · have : 0 < (runNav acts).home_page_history.length :=
      List.length_pos.mpr hne
    omega
  · decide

/-- The tokens passed to `advance` somewhere in an action list. -/
def advanceArgs (acts : List NavAction) : List String :=
  acts.filterMap (fun a =>
    match a with
    | .advance t => some t
    | _ => none)

/-- Provenance of one history element: it is the initial `none` or a
token that some `advance` in the trace carried. -/
def TokenFrom (acts : List NavAction) (x : Option String) : Prop :=
  x = none ∨ ∃ t, x = some t ∧ t ∈ advanceArgs acts

theorem tokenFrom_mono {pre : List NavAction} (acts : List NavAction)
    {x : Option String} (hx : TokenFrom pre x) : TokenFrom (pre ++ acts) x := by
  rcases hx with h | ⟨t, hxt, ht⟩
  · exact Or.inl h
  · refine Or.inr ⟨t, hxt, ?_⟩
    simp only [advanceArgs, List.filterMap_append, List.mem_append]
    exact Or.inl ht

theorem navStep_tokenFrom {pre : List NavAction} {s : PageState}
    (hs : ∀ x ∈ s.home_page_history, TokenFrom pre x) (a : NavAction) :
    ∀ x ∈ (navStep s a).home_page_history, TokenFrom (pre ++ [a]) x := by
  cases a with
  | reset =>
      intro x hx
      simp only [navStep, List.mem_singleton] at hx
      exact Or.inl hx
  | advance t =>
      by_cases ht : t = ""
      · intro x hx
        simp only [navStep, ht, if_true] at hx
        exact tokenFrom_mono _ (hs x hx)
      · intro x hx
        simp only [navStep, ht, if_false, List.mem_append,
          List.mem_singleton] at hx
        rcases hx with hx | hx
        · exact tokenFrom_mono _ (hs x hx)
        · refine Or.inr ⟨t, hx, ?_⟩
          simp [advanceArgs, List.filterMap_append]
  | retreat =>
      by_cases hl : 1 < s.home_page_history.length
      · intro x hx
        simp only [navStep, hl, if_true] at hx
        have hmem : x ∈ s.home_page_history := by
          have hsub : s.home_page_history.dropLast ⊆ s.home_page_history := by
            rw [List.dropLast_eq_take]
            exact List.take_subset _ _
          exact hsub hx
        exact tokenFrom_mono _ (hs x hmem)
      · intro x hx
        simp only [navStep, hl, if_false] at hx
        exact tokenFrom_mono _ (hs x hx)

theorem runNav_tokenFrom_aux (acts : List NavAction) :
    ∀ (pre : List NavAction) (s : PageState),
      (∀ x ∈ s.home_page_history, TokenFrom pre x) →
      ∀ x ∈ (acts.foldl navStep s).home_page_history,
        TokenFrom (pre ++ acts) x := by
  induction acts with
  | nil => intro pre s hs; simpa using hs
  | cons a as ih =>
      intro pre s hs x hx
      have h := ih (pre ++ [a]) (navStep s a) (navStep_tokenFrom hs a) x
        (by simpa using hx)
      simpa using h

/-- **C6.** For any action sequence, the current token is either the
initial `none` or a token previously passed as the argument of an
`advance` action: the controller never fabricates or mutates a
cursor. -/
theorem pagination_cursor_opacity (acts : List NavAction) :
    (runNav acts).home_page_token = none ∨
      ∃ t, (runNav acts).home_page_token = some t ∧
        NavAction.advance t ∈ acts := by
  simp only [runNav]
  have hinv := runNav_inv_aux acts initPageState ⟨by simp [initPageState], rfl⟩
  obtain ⟨hne, htok⟩ := hinv
  have hall := runNav_tokenFrom_aux acts [] initPageState
    (by
      intro x hx
      simp only [initPageState, List.mem_singleton] at hx
      exact Or.inl hx)
  have hmem : (acts.foldl navStep initPageState).home_page_token ∈
      (acts.foldl navStep initPageState).home_page_history := by
    rw [htok]
    cases h : (acts.foldl navStep initPageState).home_page_history with
    | nil => exact absurd h hne
    | cons y ys =>
        have : (y :: ys).getLastD none = (y :: ys).getLast (by simp) := by
          rw [List.getLastD_eq_getLast?, List.getLast?_eq_getLast _ (by simp)]
          rfl
        rw [this]
        exact List.getLast_mem _
  have hprov := hall (acts.foldl navStep initPageState).home_page_token hmem
  rcases hprov with h | ⟨t, hxt, ht⟩
  · exact Or.inl h
  · refine Or.inr ⟨t, hxt, ?_⟩
    simp only [List.nil_append] at ht
    rcases List.mem_filterMap.mp ht with ⟨a, ha, hfa⟩
    cases a with
    | advance u =>
        simp only [Option.some.injEq] at hfa
        rw [← hfa]; exact ha
    | reset => simp at hfa
    | retreat => simp at hfa

/-- **C7.** Invoking the previous-page transition when the history has
length 1 is a no-op: the guard `len(history) > 1` fails, the button is
disabled, and the history and current token are unchanged. -/
theorem retreat_at_bottom_noop (s : PageState)
    (h : s.home_page_history.length = 1) :
    navStep s .retreat = s := by
  have : ¬ 1 < s.home_page_history.length := by omega
  simp [navStep, this]

/-- Witness for C7: at the initial state (history of length 1) the
previous-page transition leaves the state unchanged. -/
theorem retreat_at_bottom_noop_witness :
    navStep initPageState .retreat = initPageState :=
  retreat_at_bottom_noop initPageState (by decide)

/-! ## Thumbnail scraping (src/utils.py, lines 69-115)

`scrape_images_from_url` fetches one page and collects image URL
candidates: the first `og:image` meta content, the first
`twitter:image` meta content, the first `link rel="image_src"` href,
then `img src` attributes in document order deduplicated against what
was already collected, truncated to `max_images`.
`get_thumbnail_for_review` calls it with `max_images = 1` when the
review URL is truthy and returns the first candidate, else `None`.
The parsed page is modelled as the document-order list of its tags;
the HTTP fetch is an oracle argument `fetch url timeout`, returning
`none` when `requests.get`/`raise_for_status` raises. -/

/-- A tag of the fetched page, in document order, keeping only the
attributes the scraper reads. `none` attribute values mean the
attribute is absent. -/
inductive Tag where
  | meta (property : Option String) (name : Option String)
      (content : Option String)
  | link (rel : Option String) (href : Option String)
  | img (src : Option String)
  | other
deriving DecidableEq

/-- Python truthiness of an optional string: `None` and the empty
string are falsy. -/
def pyTruthy (x : Option String) : Option String :=
  match x with
  | none => none
  | some s => if s = "" then none else some s

/-- Matches `soup.find('meta', property='og:image')`. -/
def isOgImageMeta : Tag → Bool
  | .meta p _ _ => p = some "og:image"
  | _ => false

/-- Matches `soup.find('meta', attrs=dict(name='twitter:image'))`. -/
def isTwitterImageMeta : Tag → Bool
  | .meta _ n _ => n = some "twitter:image"
  | _ => false

/-- Matches `soup.find('link', rel='image_src')`. -/
def isImageSrcLink : Tag → Bool
  | .link r _ => r = some "image_src"
  | _ => false

/-- The `content` attribute of a meta tag, `tag.get('content')`. -/
def tagContent : Tag → Option String
  | .meta _ _ c => c
  | _ => none

/-- The `href` attribute of a link tag, `tag.get('href')`. -/
def tagHref : Tag → Option String
  | .link _ h => h
  | _ => none

/-- One fallback step of the scraper: find the first tag matching `p`
and, if it exists and its attribute read by `get` is truthy, yield the
one-element candidate list, mirroring lines 84-96 of src/utils.py. -/
def candFrom (doc : List Tag) (p : Tag → Bool) (get : Tag → Option String) :
    List String :=
  match doc.find? p with
  | some t =>
      match pyTruthy (get t) with
      | some c => [c]
      | none => []
  | none => []

/-- The `src` attributes collected by `soup.find_all('img', src=True)`
in document order (lines 99-104). -/
def imgSrcs (doc : List Tag) : List String :=
  doc.filterMap (fun t =>
    match t with
    | .img s => s
    | _ => none)

/-- The `img` fallback loop of lines 99-104: append each src not
already collected, stopping as soon as `max_images` candidates are
held. -/
def imgLoop (srcs : List String) (images : List String)
    (max_images : Nat) : List String :=
  match srcs with
  | [] => images
  | src :: rest =>
      let images' := if src ∈ images then images else images ++ [src]
      if max_images ≤ images'.length then images'
      else imgLoop rest images' max_images

/-- The scraper of src/utils.py lines 69-106: fetch the page (the
`fetch` oracle stands for `requests.get` plus `raise_for_status`,
returning `none` when either raises), then chain the Open Graph,
Twitter-card, link and img fallbacks and truncate to `max_images`. -/
def scrape_images_from_url (url : String) (max_images timeout : Nat)
    (fetch : String → Nat → Option (List Tag)) : List String :=
  match fetch url timeout with
  | none => []
  | some doc =>
      let images := candFrom doc isOgImageMeta tagContent
        ++ candFrom doc isTwitterImageMeta tagContent
        ++ candFrom doc isImageSrcLink tagHref
      (imgLoop (imgSrcs doc) images max_images).take max_images

/-- The helper of src/utils.py lines 109-115: when the review URL is
truthy, scrape with `max_images = 1` (and the default timeout 10) and
return the first candidate if any; else return `None`. The second
component counts the page fetches performed. -/
def get_thumbnail_for_review (review_url : Option String)
    (fetch : String → Nat → Option (List Tag)) : Option String × Nat :=
  match pyTruthy review_url with
  | some u => ((scrape_images_from_url u 1 10 fetch).head?, 1)
  | none => (none, 0)

/-- Modelled from the spec (section 4.2): the ORDERED fallback chain —
Open Graph content, then Twitter-card content, then the image_src link
href, then the first img src in document order — the first match
winning. Stated for comparison with `scrape_images_from_url`. -/
def specFallbackChain (doc : List Tag) : Option String :=
  match (candFrom doc isOgImageMeta tagContent).head? with
  | some c => some c
  | none =>
      match (candFrom doc isTwitterImageMeta tagContent).head? with
      | some c => some c
      | none =>
          match (candFrom doc isImageSrcLink tagHref).head? with
          | some c => some c
          | none => (imgSrcs doc).head?

theorem imgLoop_eq_append (srcs : List String) :
    ∀ images max_images, ∃ ex,
      imgLoop srcs images max_images = images ++ ex := by
  induction srcs with
  | nil => intro images m; exact ⟨[], by simp [imgLoop]⟩
  | cons src rest ih =>
      intro images m
      by_cases hmem : src ∈ images
      · by_cases hstop : m ≤ images.length
        · exact ⟨[], by simp [imgLoop, hmem, hstop]⟩
        · obtain ⟨ex, hex⟩ := ih images m
          exact ⟨ex, by simp only [imgLoop, hmem, if_true, if_neg hstop]; exact hex⟩
      · by_cases hstop : m ≤ images.length + 1
        · refine ⟨[src], ?_⟩
          simp only [imgLoop, hmem, if_false]
          rw [if_pos (by simpa using hstop)]
        · obtain ⟨ex, hex⟩ := ih (images ++ [src]) m
          refine ⟨[src] ++ ex, ?_⟩
          simp only [imgLoop, hmem, if_false]
          rw [if_neg (by simpa using hstop)]
          rw [hex, List.append_assoc]

theorem candFrom_cases (doc : List Tag) (p : Tag → Bool)
    (get : Tag → Option String) :
    candFrom doc p get = [] ∨ ∃ c, candFrom doc p get = [c] := by
  rcases hfind : doc.find? p with _ | t
  · exact Or.inl (by simp [candFrom, hfind])
  · rcases htr : pyTruthy (get t) with _ | c
    · exact Or.inl (by simp [candFrom, hfind, htr])
    · exact Or.inr ⟨c, by simp [candFrom, hfind, htr]⟩

theorem head?_take_one {α : Type} (l : List α) :
    (l.take 1).head? = l.head? := by
  cases l <;> simp

theorem imgLoop_head?_of_ne (srcs images : List String) (m : Nat)
    (h : images ≠ []) : (imgLoop srcs images m).head? = images.head? := by
  obtain ⟨ex, hex⟩ := imgLoop_eq_append srcs images m
  rw [hex]
  cases images with
  | nil => exact absurd rfl h
  | cons c rest => simp

theorem imgLoop_nil_one (srcs : List String) :
    imgLoop srcs [] 1 = srcs.take 1 := by
  cases srcs with
  | nil => rfl
  | cons s rest => simp [imgLoop]

theorem scrape_head_eq_chain (u : String) (timeout : Nat) (doc : List Tag)
    (fetch : String → Nat → Option (List Tag))
    (hf : fetch u timeout = some doc) :
    (scrape_images_from_url u 1 timeout fetch).head? = specFallbackChain doc := by
  unfold scrape_images_from_url specFallbackChain
  simp only [hf]
  rcases candFrom_cases doc isOgImageMeta tagContent with hog | ⟨c, hog⟩
  · rcases candFrom_cases doc isTwitterImageMeta tagContent with htw | ⟨c, htw⟩
    · rcases candFrom_cases doc isImageSrcLink tagHref with hlk | ⟨c, hlk⟩
      · rw [hog, htw, hlk]
        simp only [List.append_nil, List.nil_append]
        rw [head?_take_one, imgLoop_nil_one, head?_take_one]
        simp
      · rw [hog, htw, hlk]
        simp only [List.nil_append]
        rw [head?_take_one, imgLoop_head?_of_ne _ _ _ (by simp)]
        simp
    · rw [hog, htw]
      simp only [List.nil_append]
      rw [head?_take_one, imgLoop_head?_of_ne _ _ _ (by simp)]
      simp
  · rw [hog]
    rw [head?_take_one, imgLoop_head?_of_ne _ _ _ (by simp)]
    simp

/-- **C2.** For every fetched page markup, the single-image thumbnail
contract returns exactly the first candidate of the ordered fallback
chain: Open Graph og:image content, then twitter:image content, then
the image_src link href, then the first img src in document order. In
particular a page with an og:image meta and a differing img yields the
og:image URL, a page with only a twitter:image meta plus img tags
yields the twitter:image URL, and a page with none of the meta/link
tags yields the first img src. -/
theorem thumbnail_fallback_order (u : String) (hu : u ≠ "")
    (doc : List Tag) (fetch : String → Nat → Option (List Tag))
    (hf : fetch u 10 = some doc) :
    (get_thumbnail_for_review (some u) fetch).1 = specFallbackChain doc := by
  have h := scrape_head_eq_chain u 10 doc fetch hf
  unfold get_thumbnail_for_review
  simp only [pyTruthy, if_neg hu]
  exact h

/-- Witness for C2: a concrete page holding both an og:image meta tag
and a differing img resolves to the og:image URL. -/
theorem thumbnail_fallback_order_witness :
    (get_thumbnail_for_review (some "http://a.example/r")
        (fun _ _ => some
          [Tag.meta (some "og:image") none (some "http://a.example/og.png"),
           Tag.img (some "http://a.example/body.png")])).1 =
      specFallbackChain
        [Tag.meta (some "og:image") none (some "http://a.example/og.png"),
         Tag.img (some "http://a.example/body.png")] :=
  thumbnail_fallback_order "http://a.example/r" (by decide) _ _ rfl

/-- **C9.** Thumbnail resolution degrades to `none` instead of
failing: an absent (or empty) review URL returns `none` with zero
fetches, a failed page fetch makes the scraper return the empty list
for every URL, candidate limit and timeout, and hence the thumbnail is
`none` whenever the single page fetch fails. -/
theorem thumbnail_degrades_to_none (url : Option String)
    (fetch : String → Nat → Option (List Tag)) :
    (pyTruthy url = none → get_thumbnail_for_review url fetch = (none, 0)) ∧
      (∀ u max_images timeout, fetch u timeout = none →
        scrape_images_from_url u max_images timeout fetch = []) ∧
      (∀ u, url = some u → fetch u 10 = none →
        (get_thumbnail_for_review url fetch).1 = none) := by
  refine ⟨?_, ?_, ?_⟩
  · intro h
    unfold get_thumbnail_for_review
    rw [h]
  · intro u m t hf
    unfold scrape_images_from_url
    rw [hf]
  · intro u hurl hf
    subst hurl
    unfold get_thumbnail_for_review
    rcases hu : pyTruthy (some u) with _ | v
    · rfl
    · have hv : v = u := by
        simp only [pyTruthy] at hu
        by_cases h : u = ""
        · simp [h] at hu
        · simp [h] at hu
          exact hu.symm
      subst hv
      show (scrape_images_from_url v 1 10 fetch).head? = none
      unfold scrape_images_from_url
      rw [hf]
      rfl

/-- Witness for C9: an absent review URL yields no thumbnail and zero
fetches. -/
theorem thumbnail_degrades_to_none_witness :
    get_thumbnail_for_review none (fun _ _ => none) = (none, 0) :=
  (thumbnail_degrades_to_none none (fun _ _ => none)).1 rfl

/-! ## Fact-check API call (src/utils.py, lines 13-67)

`call_fact_check_api` checks the credential, assembles the query
parameters (omitting falsy `query` and `page_token`), issues one
`requests.get`, raises for 4xx/5xx, treats an empty body as a
zero-result page, parses the body as JSON, and converts every raised
exception into a dict with an `error` key via the ordered except
clauses. The network is an oracle mapping the assembled parameters to
an outcome; the whole call is modelled in `Except`, where an
uncaught exception would surface as the `error` constructor. -/

/-- A JSON-like value: what `response.json()` produces and what the
function returns (Python dicts and lists). -/
inductive JVal where
  | jnull
  | jstr (s : String)
  | jnum (n : Int)
  | jarr (elems : List JVal)
  | jobj (fields : List (String × JVal))

mutual

/-- Python str() of a JSON value, as interpolated into the error
f-strings. -/
def jshow : JVal → String
  | .jnull => "None"
  | .jstr s => "\x27" ++ s ++ "\x27"
  | .jnum n => toString n
  | .jarr es => "[" ++ jshowList es ++ "]"
  | .jobj fs => "\x7b" ++ jshowFields fs ++ "\x7d"

/-- Comma-separated rendering of a JSON array body. -/
def jshowList : List JVal → String
  | [] => ""
  | [x] => jshow x
  | x :: y :: xs => jshow x ++ ", " ++ jshowList (y :: xs)

/-- Comma-separated rendering of a JSON object body. -/
def jshowFields : List (String × JVal) → String
  | [] => ""
  | [(k, v)] => "\x27" ++ k ++ "\x27: " ++ jshow v
  | (k, v) :: y :: xs =>
      "\x27" ++ k ++ "\x27: " ++ jshow v ++ ", " ++ jshowFields (y :: xs)

end

/-- The dict `d` with `d.get('error')` truthy that every failure path
of src/utils.py returns. -/
def errDict (msg : String) : JVal :=
  JVal.jobj [("error", JVal.jstr msg)]

/-- The exceptions that can reach the except clauses of src/utils.py
lines 51-67: `requests.exceptions.HTTPError` from `raise_for_status`,
any other `requests.exceptions.RequestException` from `requests.get`
(timeout, DNS failure, connection refused), the decode exception from
`response.json()` on an unparsable body, and any other `Exception`.
The HTTPError constructor carries the response status, reason, parsed
JSON body when it parses, and raw text. Since requests 2.27 the
exception `response.json()` raises is
`requests.exceptions.JSONDecodeError`, which subclasses both
`RequestException` (via `InvalidJSONError`) and
`json.JSONDecodeError`. -/
inductive ReqExn where
  | httpError (status : Nat) (reason : String) (respJson : Option JVal)
      (respText : String)
  | requestError (detail : String)
  | jsonDecodeError (detail : String) (respText : String)
  | otherError (name : String) (detail : String)

/-- Python isinstance test against `requests.exceptions.HTTPError`. -/
def isHTTPError : ReqExn → Bool
  | .httpError .. => true
  | _ => false

/-- Python isinstance test against
`requests.exceptions.RequestException`; `HTTPError` is one of its
subclasses, and so is the `requests.exceptions.JSONDecodeError` that
`response.json()` raises (requests 2.27 and later, via
`InvalidJSONError`). -/
def isRequestException : ReqExn → Bool
  | .httpError .. => true
  | .requestError _ => true
  | .jsonDecodeError .. => true
  | _ => false

/-- Python isinstance test against `json.JSONDecodeError`: true for
the decode exception, which subclasses it as well. -/
def isJSONDecodeError : ReqExn → Bool
  | .jsonDecodeError .. => true
  | _ => false

/-- Python isinstance test against `Exception`: every modelled
exception is one. -/
def isException : ReqExn → Bool
  | _ => true

/-- Python str(e) for the modelled exceptions. -/
def exnStr : ReqExn → String
  | .httpError status reason _ _ => toString status ++ (" " ++ reason)
  | .requestError d => d
  | .jsonDecodeError d _ => d
  | .otherError _ d => d

/-- Python type(e).__name__ for the modelled exceptions. -/
def exnTypeName : ReqExn → String
  | .httpError .. => "HTTPError"
  | .requestError _ => "RequestException"
  | .jsonDecodeError .. => "JSONDecodeError"
  | .otherError n _ => n

/-- The outcome of `requests.get`: a response (with status, reason,
raw body and the result of parsing the body as JSON), or a raised
exception. -/
inductive NetOutcome where
  | response (status : Nat) (reason : String) (body : String)
      (parsed : Except String JVal)
  | raised (e : ReqExn)

/-- The message built by the HTTPError handler (lines 52-57): the
status and reason, then the parsed error body when the body parses as
JSON, else the raw text. -/
def httpErrorDetail (status : Nat) (reason : String) (respJson : Option JVal)
    (respText : String) : String :=
  "HTTP Error: " ++ (toString status ++ (" " ++ (reason ++ (" - " ++
    match respJson with
    | some j => jshow j
    | none => respText))))

/-- The message built by the RequestException handler (lines 60-61). -/
def transportErrorDetail (detail : String) : String :=
  "API Request Error: " ++ detail

/-- The message built by the JSONDecodeError handler (lines 63-64):
the decode error and the first 500 characters of the response text. -/
def decodeErrorDetail (detail respText : String) : String :=
  "API JSON Decode Error: " ++ (detail ++ (". Response text: " ++
    ((respText.take 500) ++ "...")))

/-- The message built by the bare Exception handler (lines 66-67). -/
def unexpectedErrorDetail (name detail : String) : String :=
  "An unexpected error occurred in API call: " ++ (name ++ (" - " ++ detail))

/-- The ordered except clauses of lines 51-67, tried in source order
exactly as Python matches a raised exception against them; `none`
would mean no clause matched and the exception propagates. -/
def exceptClauses (e : ReqExn) : Option JVal :=
  if isHTTPError e then
    some (errDict (match e with
      | .httpError s r j t => httpErrorDetail s r j t
      | _ => ""))
  else if isRequestException e then
    some (errDict (transportErrorDetail (exnStr e)))
  else if isJSONDecodeError e then
    some (errDict (match e with
      | .jsonDecodeError d t => decodeErrorDetail d t
      | _ => ""))
  else if isException e then
    some (errDict (unexpectedErrorDetail (exnTypeName e) (exnStr e)))
  else none

/-- The try block of lines 42-49: issue the request,
`raise_for_status` (which raises HTTPError exactly for 4xx/5xx),
return a zero-result page on an empty body, else return the parsed
JSON, raising JSONDecodeError when the body does not parse. -/
def tryBlock (o : NetOutcome) : Except ReqExn JVal :=
  match o with
  | .raised e => .error e
  | .response status reason body parsed =>
      if 400 ≤ status ∧ status < 600 then
        .error (.httpError status reason parsed.toOption body)
      else if body = "" then
        .ok (JVal.jobj [("claims", JVal.jarr [])])
      else
        match parsed with
        | .ok j => .ok j
        | .error msg => .error (.jsonDecodeError msg body)

/-- The query parameters assembled at lines 32-40: key, languageCode
and pageSize always, `query` and `pageToken` only when truthy. -/
def buildParams (api_key : String) (query : Option String)
    (language_code : String) (page_size : Nat)
    (page_token : Option String) : List (String × String) :=
  [("key", api_key), ("languageCode", language_code),
   ("pageSize", toString page_size)]
    ++ (match pyTruthy query with
        | some q => [("query", q)]
        | none => [])
    ++ (match pyTruthy page_token with
        | some t => [("pageToken", t)]
        | none => [])

/-- src/utils.py lines 14-67: check the credential before any I/O,
assemble the parameters, run the try block on the network outcome for
those parameters, and push any raised exception through the except
clauses. The second component counts the `requests.get` calls
performed; the `Except` layer records whether an exception escapes the
function. -/
def call_fact_check_api (secrets_api_key : Option String)
    (query : Option String) (language_code : String) (page_size : Nat)
    (page_token : Option String)
    (net : List (String × String) → NetOutcome) :
    Except ReqExn JVal × Nat :=
  match pyTruthy secrets_api_key with
  | none => (.ok (errDict "API Key missing"), 0)
  | some api_key =>
      match tryBlock
          (net (buildParams api_key query language_code page_size
            page_token)) with
      | .ok d => (.ok d, 1)
      | .error e =>
          match exceptClauses e with
          | some d => (.ok d, 1)
          | none => (.error e, 1)

theorem exceptClauses_isSome (e : ReqExn) :
    (exceptClauses e).isSome = true := by
  cases e <;>
    simp [exceptClauses, isHTTPError, isRequestException, isJSONDecodeError,
      isException]

/-- **C3.** For every combination of credential, query, language,
page size and cursor, and for every outcome of the underlying HTTP
call (success, non-2xx status, connectivity failure, undecodable body,
or any other raised fault), the search call never lets an exception
escape: it always returns a value. -/
theorem api_call_never_raises (secrets_api_key query : Option String)
    (language_code : String) (page_size : Nat) (page_token : Option String)
    (net : List (String × String) → NetOutcome) :
    ∃ d, (call_fact_check_api secrets_api_key query language_code page_size
        page_token net).1 = Except.ok d := by
  unfold call_fact_check_api
  rcases hk : pyTruthy secrets_api_key with _ | k
  · exact ⟨errDict "API Key missing", rfl⟩
  · rcases ht : tryBlock
        (net (buildParams k query language_code page_size page_token)) with
        e | d
    · rcases hx : exceptClauses e with _ | d
      · have := exceptClauses_isSome e
        rw [hx] at this
        cases this
      · exact ⟨d, by simp [ht, hx]⟩
    · exact ⟨d, by simp [ht]⟩

/-- **C5.** When no credential is configured (the secret absent or the
empty string, both falsy), the call returns the configuration failure
dict with message "API Key missing" and performs zero network
requests: the credential check precedes all I/O. -/
theorem api_missing_key_no_io (query : Option String)
    (language_code : String) (page_size : Nat) (page_token : Option String)
    (net : List (String × String) → NetOutcome) :
    call_fact_check_api none query language_code page_size page_token net
        = (Except.ok (errDict "API Key missing"), 0) ∧
      call_fact_check_api (some "") query language_code page_size
          page_token net
        = (Except.ok (errDict "API Key missing"), 0) := by
  constructor
  · rfl
  · simp [call_fact_check_api, pyTruthy]

/-- **C10.** An empty-string query is treated exactly like an absent
one, and an empty-string page token exactly like an absent one: the
assembled request parameters and the whole call result coincide,
because both parameters are included only when truthy. -/
theorem api_empty_string_params (secrets_api_key query : Option String)
    (language_code : String) (page_size : Nat) (page_token : Option String)
    (net : List (String × String) → NetOutcome) :
    (∀ k, buildParams k (some "") language_code page_size page_token
        = buildParams k none language_code page_size page_token) ∧
      (∀ k, buildParams k query language_code page_size (some "")
        = buildParams k query language_code page_size none) ∧
      call_fact_check_api secrets_api_key (some "") language_code page_size
          page_token net
        = call_fact_check_api secrets_api_key none language_code page_size
          page_token net ∧
      call_fact_check_api secrets_api_key query language_code page_size
          (some "") net
        = call_fact_check_api secrets_api_key query language_code page_size
          none net := by
  refine ⟨?_, ?_, ?_, ?_⟩ <;>
    simp [buildParams, call_fact_check_api, pyTruthy]

theorem list_append_ne {α : Type} (a b x y : List α) (n : Nat)
    (ha : n ≤ a.length) (hb : n ≤ b.length)
    (hne : a.take n ≠ b.take n) : a ++ x ≠ b ++ y := by
  intro he
  apply hne
  rw [← List.take_append_of_le_length ha, ← List.take_append_of_le_length hb,
    he]

theorem str_append_ne (p q s t : String) (n : Nat)
    (hp : n ≤ p.data.length) (hq : n ≤ q.data.length)
    (hne : p.data.take n ≠ q.data.take n) : p ++ s ≠ q ++ t := by
  intro he
  exact list_append_ne p.data q.data s.data t.data n hp hq hne
    (congrArg String.data he)

/-- **C8.** The claim fails on the code: since requests 2.27 the
exception `response.json()` raises on an unparsable body subclasses
`RequestException`, so the except clause at line 60 catches decode
failures before the `json.JSONDecodeError` clause at line 63 (which is
dead for that path) and reports them with the transport-error message
family. At a 2xx response with the non-empty unparsable body "oops"
the call returns the "API Request Error" dict, which differs from the
"API JSON Decode Error" dict the dead handler would have built — the
classification the claim (and the intent visible in the dead handler)
requires. -/
theorem api_decode_reported_as_transport :
    (call_fact_check_api (some "K") none "en" 10 none
        (fun _ => .response 200 "OK" "oops"
          (.error "Expecting value: line 1 column 1 (char 0)"))).1
      = Except.ok (errDict (transportErrorDetail
          "Expecting value: line 1 column 1 (char 0)")) ∧
      transportErrorDetail "Expecting value: line 1 column 1 (char 0)"
        ≠ decodeErrorDetail "Expecting value: line 1 column 1 (char 0)"
          "oops" := by
  constructor
  · simp [call_fact_check_api, pyTruthy, tryBlock, exceptClauses,
      isHTTPError, isRequestException, exnStr, transportErrorDetail]
  · exact str_append_ne _ _ _ _ 5 (by decide) (by decide) (by decide)

/-! ## Result cache (src/utils.py, line 13)

The `st.cache_data(ttl=3600)` decorator on `call_fact_check_api`
memoizes the call per argument tuple for one hour. -/

/-- The cache key of the decorated call: the argument tuple
(query, language_code, page_size, page_token). -/
def ApiCacheKey : Type := Option String × String × Nat × Option String

instance : DecidableEq ApiCacheKey := by
  unfold ApiCacheKey
  infer_instance

/-- Modelled from the spec (section 4.4): the TTL-bounded memo table
behind `st.cache_data`, which is Streamlit library code not present in
this repository. An entry maps a key to a stored result and its
insertion time; an entry older than the TTL is treated as absent. -/
def cacheLookup {α : Type} (entries : List (ApiCacheKey × α × Nat))
    (k : ApiCacheKey) : Option (α × Nat) :=
  (entries.find? (fun e => decide (e.1 = k))).map (fun e => e.2)

/-- Modelled from the spec (section 4.4): on a key hit younger than
the TTL return the stored result without invoking `fetchFn`; on a miss
or an expired hit invoke `fetchFn` exactly once, store the result with
the current time, and return it. The third component counts the
`fetchFn` invocations of the call. -/
def getOrFetch {α : Type} (entries : List (ApiCacheKey × α × Nat))
    (k : ApiCacheKey) (now ttl : Nat) (fetchFn : Unit → α) :
    α × List (ApiCacheKey × α × Nat) × Nat :=
  match cacheLookup entries k with
  | some (v, insertedAt) =>
      if now - insertedAt < ttl then (v, entries, 0)
      else
        let v := fetchFn ()
        (v, (k, v, now) :: entries, 1)
  | none =>
      let v := fetchFn ()
      (v, (k, v, now) :: entries, 1)

/-- The decorated `call_fact_check_api` of src/utils.py line 13: the
cache is keyed by the argument tuple and holds entries for
`ttl = 3600` seconds; on a miss the undecorated function runs. -/
def cached_call (entries : List (ApiCacheKey × (Except ReqExn JVal × Nat) × Nat))
    (now : Nat) (secrets_api_key query : Option String)
    (language_code : String) (page_size : Nat) (page_token : Option String)
    (net : List (String × String) → NetOutcome) :
    (Except ReqExn JVal × Nat) ×
      List (ApiCacheKey × (Except ReqExn JVal × Nat) × Nat) × Nat :=
  getOrFetch entries (query, language_code, page_size, page_token) now 3600
    (fun _ => call_fact_check_api secrets_api_key query language_code
      page_size page_token net)

/-- **C4.** Starting from an empty cache, two calls with an identical
key within the one-hour TTL window run the underlying fetch exactly
once (the first call fetches, the second does not), the second call
returns the stored result of the first, and a key differing in cursor
or in language misses the entry and fetches again. -/
theorem cache_idempotence (secrets_api_key query : Option String)
    (language_code : String) (page_size : Nat) (page_token : Option String)
    (net net2 : List (String × String) → NetOutcome) (t1 t2 : Nat)
    (language_code2 : String) (page_token2 : Option String)
    (h1 : t1 ≤ t2) (h2 : t2 - t1 < 3600)
    (hdiff : page_token ≠ page_token2 ∨ language_code ≠ language_code2) :
    (cached_call [] t1 secrets_api_key query language_code page_size
        page_token net).2.2 = 1 ∧
      (cached_call (cached_call [] t1 secrets_api_key query language_code
          page_size page_token net).2.1 t2 secrets_api_key query
          language_code page_size page_token net2).2.2 = 0 ∧
      (cached_call (cached_call [] t1 secrets_api_key query language_code
          page_size page_token net).2.1 t2 secrets_api_key query
          language_code page_size page_token net2).1
        = (cached_call [] t1 secrets_api_key query language_code page_size
          page_token net).1 ∧
      (cached_call (cached_call [] t1 secrets_api_key query language_code
          page_size page_token net).2.1 t2 secrets_api_key query
          language_code2 page_size page_token2 net2).2.2 = 1 := by
  have hne : ((query, language_code, page_size, page_token) : ApiCacheKey)
      ≠ (query, language_code2, page_size, page_token2) := by
    intro hh
    simp only [Prod.mk.injEq] at hh
    rcases hdiff with h | h
    · exact h hh.2.2.2
    · exact h hh.2.1
  have hr1 : cached_call [] t1 secrets_api_key query language_code page_size
      page_token net
      = (call_fact_check_api secrets_api_key query language_code page_size
          page_token net,
         [((query, language_code, page_size, page_token),
           call_fact_check_api secrets_api_key query language_code page_size
             page_token net, t1)], 1) := rfl
  refine ⟨by rw [hr1], ?_, ?_, ?_⟩
  · rw [hr1]
    simp [cached_call, getOrFetch, cacheLookup, List.find?_cons, h2]
  · rw [hr1]
    simp [cached_call, getOrFetch, cacheLookup, List.find?_cons, h2]
  · rw [hr1]
    simp [cached_call, getOrFetch, cacheLookup, List.find?_cons, hne]

/-- Witness for C4: with concrete times 0 and 10 and keys differing in
language, the first call fetches, the second hits, and the
different-language call fetches again. -/
theorem cache_idempotence_witness :
    (cached_call [] 0 none none "en" 1 none
        (fun _ => .raised (.requestError ""))).2.2 = 1 ∧
      (cached_call (cached_call [] 0 none none "en" 1 none
          (fun _ => .raised (.requestError ""))).2.1 10 none none
          "en" 1 none (fun _ => .raised (.requestError ""))).2.2 = 0 ∧
      (cached_call (cached_call [] 0 none none "en" 1 none
          (fun _ => .raised (.requestError ""))).2.1 10 none none
          "en" 1 none (fun _ => .raised (.requestError ""))).1
        = (cached_call [] 0 none none "en" 1 none
          (fun _ => .raised (.requestError ""))).1 ∧
      (cached_call (cached_call [] 0 none none "en" 1 none
          (fun _ => .raised (.requestError ""))).2.1 10 none none
          "hi" 1 none (fun _ => .raised (.requestError ""))).2.2 = 1 :=
  cache_idempotence none none "en" 1 none
    (fun _ => .raised (.requestError "")) (fun _ => .raised (.requestError ""))
    0 10 "hi" none (by decide) (by decide) (Or.inr (by decide))

end TruthShield
